import Mathlib

/-!
Shallow embedding of the trade-execution and position-lifecycle engine of
the binance-futures-strategy-bot repository (files `real_trading.py`,
`tp_sl_manager.py`, `strategy_manager.py`).

Modelling conventions:
* Python floats are modelled as exact rationals (`ℚ`); `round(x, n)` is
  modelled as round-half-to-even at `n` decimal places, matching Python's
  documented rounding mode on exact values.
* Network I/O is modelled by passing the outcome of each HTTP attempt as
  an explicit argument (an environment).  `None` results of the Python
  code become `Option.none`.
* Python strings produced by quantity formatting are modelled as `List Char`.
* Wall-clock timestamps are passed in as opaque `String` arguments.
-/

namespace BinanceBot

/-- Outcome of one HTTP attempt inside `_signed_request`:
either an exception was raised during the attempt (timeout / connection
error), or an HTTP response with a given status code and (opaque) body
was received. -/
inductive HttpOutcome where
  | exn : HttpOutcome
  | resp (status : Nat) (body : Nat) : HttpOutcome
deriving DecidableEq, Repr

/-- Embedding of `RealTrader._handle_response` (real_trading.py:146-160):
a 200 status yields the parsed body, anything else yields `None`. -/
def handle_response (status body : Nat) : Option Nat :=
  if status = 200 then some body else none

/-- Embedding of the retry loop of `RealTrader._signed_request`
(real_trading.py:124-144).  The list holds the outcome of each of the
`retries` attempts, in order; the second component of the result is the
list of back-off sleeps performed (`delay * 2 ^ (attempt - 1)` seconds).
In the source, an exception during the attempt is caught and retried
(with a sleep only when `attempt < retries`, i.e. when further attempts
remain), while any received HTTP response is passed to
`_handle_response` and returned immediately. -/
def signed_request_loop : List HttpOutcome → Nat → Nat → Option Nat × List Nat
  | [], _, _ => (none, [])
  | HttpOutcome.resp s b :: _, _, _ => (handle_response s b, [])
  | HttpOutcome.exn :: rest, attempt, delay =>
    match rest with
    | [] => (none, [])
    | r :: rs =>
      let acc := signed_request_loop (r :: rs) (attempt + 1) delay
      (acc.1, delay * 2 ^ (attempt - 1) :: acc.2)

/-- Embedding of `RealTrader._signed_request` itself: attempts are
numbered from 1; defaults in the source are `retries=15`, `delay=15`. -/
def signed_request (attempts : List HttpOutcome) (delay : Nat) : Option Nat × List Nat :=
  signed_request_loop attempts 1 delay

/-- Modelled from the spec (§4.1 retry policy): a variant of the retry
loop that retries on ANY failed attempt — a raised exception or a
non-200 HTTP status alike — as the specification describes, waiting
`delay * 2 ^ (attempt - 1)` between attempts.  Used only to compare the
spec's description against the source's actual behaviour. -/
def spec_retry_loop : List HttpOutcome → Nat → Nat → Option Nat × List Nat
  | [], _, _ => (none, [])
  | o :: rest, attempt, delay =>
    let res := match o with
      | HttpOutcome.exn => none
      | HttpOutcome.resp s b => handle_response s b
    match res with
    | some d => (some d, [])
    | none =>
      match rest with
      | [] => (none, [])
      | r :: rs =>
        let acc := spec_retry_loop (r :: rs) (attempt + 1) delay
        (acc.1, delay * 2 ^ (attempt - 1) :: acc.2)

/-- Modelled from the spec: `signed_request` as §4.1 describes it. -/
def spec_signed_request (attempts : List HttpOutcome) (delay : Nat) : Option Nat × List Nat :=
  spec_retry_loop attempts 1 delay

/-! ### Rounding and quantity formatting -/

/-- Round-half-to-even to the nearest integer, the rounding mode of
Python's built-in `round`. -/
def rndHalfEven (x : ℚ) : ℤ :=
  if x - ⌊x⌋ < 1 / 2 then ⌊x⌋
  else if 1 / 2 < x - ⌊x⌋ then ⌊x⌋ + 1
  else if ⌊x⌋ % 2 = 0 then ⌊x⌋ else ⌊x⌋ + 1

/-- Embedding of Python's `round(x, prec)` on exact values. -/
def roundTo (x : ℚ) (prec : Nat) : ℚ :=
  (rndHalfEven (x * 10 ^ prec) : ℚ) / 10 ^ prec

/-- Decimal digit characters of a natural number, most significant
first; structurally recursive on a fuel argument so that it reduces in
the kernel.  `natChars` below supplies sufficient fuel. -/
def natCharsAux : Nat → Nat → List Char
  | 0, _ => []
  | fuel + 1, n =>
    if n < 10 then [Nat.digitChar n]
    else natCharsAux fuel (n / 10) ++ [Nat.digitChar (n % 10)]

/-- Decimal digit characters of a natural number, most significant first. -/
def natChars (n : Nat) : List Char :=
  natCharsAux (n + 1) n

/-- Embedding of Python's fixed-point formatting `f"{x:.{prec}f}"` on a
nonnegative value whose scaled form is already integral: renders the
integer part, then (when `prec > 0`) a dot and exactly `prec` fractional
digits. -/
def fmtFixed (m : Nat) (prec : Nat) : List Char :=
  if prec = 0 then natChars m
  else
    let fracDigits := natChars (m % 10 ^ prec)
    natChars (m / 10 ^ prec) ++ '.' ::
      (List.replicate (prec - fracDigits.length) '0' ++ fracDigits)

/-- Embedding of Python's `s.rstrip(c)` for a single strip character. -/
def rstrip (l : List Char) (c : Char) : List Char :=
  (l.reverse.dropWhile (fun x => x == c)).reverse

/-- Embedding of the quantity-string computation of
`RealTrader.open_position` / `close_position` (real_trading.py:360,408):
`f"{quantity:.{precision}f}".rstrip('0').rstrip('.') if '.' in ... else ...`.
The quantity is nonnegative in every reachable call. -/
def quantity_chars (quantity : ℚ) (precision : Nat) : List Char :=
  let s := fmtFixed (rndHalfEven (quantity * 10 ^ precision)).toNat precision
  if '.' ∈ s then rstrip (rstrip s '0') '.' else s

/-- Embedding of `RealTrader.get_symbol_precision` (real_trading.py:219-237):
the exchange-reported quantity precision when available, else the
default 3. -/
def get_symbol_precision (info : Option Nat) : Nat :=
  match info with
  | some p => p
  | none => 3

/-! ### The position ledger (`RealTrader`) -/

/-- Position side, the `'long'` / `'short'` strings of the source. -/
inductive Side where
  | long : Side
  | short : Side
deriving DecidableEq, Repr

/-- Reason classification of the exit rule that fired, standing for the
free-text `reason_to_close` strings built in `tp_sl_manager.check_tp_sl`. -/
inductive ExitReason where
  | hardStopLoss : ExitReason
  | takeProfit : ExitReason
  | psarTrailing : ExitReason
  | macdCross : ExitReason
  | adxSideways : ExitReason
deriving DecidableEq, Repr

/-- Embedding of the position dict built in `RealTrader.open_position`
(real_trading.py:375-385). -/
structure Position where
  order_id : String
  symbol : String
  side : Side
  entry_time : String
  entry_price : ℚ
  quantity : ℚ
  active : Bool
  atr_at_entry : ℚ
deriving DecidableEq, Repr

/-- Embedding of the trade record appended to `self.trade_history` in
`RealTrader.close_position` (real_trading.py:432-437). -/
structure TradeRecord where
  order_id : String
  symbol : String
  side : Side
  entry_price : ℚ
  exit_price : ℚ
  pnl : ℚ
  reason : ExitReason
deriving DecidableEq, Repr

/-- Embedding of the dict returned by `RealTrader.close_position`
(real_trading.py:444-448). -/
structure CloseResult where
  pnl_percent : ℚ
  pnl_amount : ℚ
  close_time : String
deriving DecidableEq, Repr

/-- Parameters of a MARKET order submitted to `POST /fapi/v1/order`
(real_trading.py:362-367 and 410-416).  `side` is the `'BUY'`/`'SELL'`
string, `quantity` the formatted quantity string. -/
structure OrderParams where
  symbol : String
  side : String
  quantity : List Char
  reduceOnly : Bool
deriving DecidableEq, Repr

/-- Mutable state of a `RealTrader` instance relevant to the ledger:
leverage, commission rate, the position dict (modelled as a list keyed
by `order_id`) and the append-only trade history. -/
structure RealTrader where
  leverage : ℚ
  commission : ℚ
  positions : List Position
  trade_history : List TradeRecord
deriving DecidableEq, Repr

/-- Class constant `RealTrader.FIXED_RISK_AMOUNT` (real_trading.py:22). -/
def FIXED_RISK_AMOUNT : ℚ := 100

/-- Class constant `RealTrader.DEFAULT_STOP_MULTIPLIER` (real_trading.py:23). -/
def DEFAULT_STOP_MULTIPLIER : ℚ := 5 / 2

/-- Embedding of `RealTrader.get_open_positions` (real_trading.py:462-463). -/
def get_open_positions (t : RealTrader) : List Position :=
  t.positions.filter (fun p => p.active)

/-- Embedding of `RealTrader.open_position` (real_trading.py:330-394).
Environment arguments: the account `balance` returned by `get_balance`,
the `symbolInfo` precision lookup result, the exchange's answer `api`
to the submitted order (`some order_id` on success, `none` when
`_signed_request` returned its failure sentinel), and the entry
timestamp `now`.  Returns the order id (or `none`), the updated trader
state, and the list of orders submitted to the exchange. -/
def open_position (t : RealTrader) (symbol : String) (side : Side)
    (entry_price atr_at_entry : ℚ) (balance : ℚ) (symbolInfo : Option Nat)
    (api : Option String) (now : String) :
    Option String × RealTrader × List OrderParams :=
  if balance ≤ 0 then (none, t, [])
  else
    let price_diff := atr_at_entry * DEFAULT_STOP_MULTIPLIER
    if price_diff ≤ 0 then (none, t, [])
    else
      let quantity := roundTo (FIXED_RISK_AMOUNT / price_diff) (get_symbol_precision symbolInfo)
      let qstr := quantity_chars quantity (get_symbol_precision symbolInfo)
      let order : OrderParams :=
        ⟨symbol, if side = Side.long then "BUY" else "SELL", qstr, false⟩
      match api with
      | none => (none, t, [order])
      | some order_id =>
        let pos : Position :=
          ⟨order_id, symbol, side, now, entry_price, quantity, true, atr_at_entry⟩
        (some order_id, { t with positions := t.positions ++ [pos] }, [order])

/-- Embedding of `RealTrader.close_position` (real_trading.py:397-448).
`symbolInfo` feeds the precision lookup for the close order's quantity
string, `api_ok` tells whether the reduce-only close order succeeded
(`_signed_request` non-`None`), `now` is the close timestamp.  Returns
the close-result dict (or `none`), the updated trader state, and the
orders submitted. -/
def close_position (t : RealTrader) (order_id : String) (exit_price : ℚ)
    (reason : ExitReason) (symbolInfo : Option Nat) (api_ok : Bool) (now : String) :
    Option CloseResult × RealTrader × List OrderParams :=
  match t.positions.find? (fun p => p.order_id == order_id) with
  | none => (none, t, [])
  | some position =>
    if position.active = false then (none, t, [])
    else
      let side := if position.side = Side.long then "SELL" else "BUY"
      let precision := get_symbol_precision symbolInfo
      let qstr := quantity_chars position.quantity precision
      let order : OrderParams := ⟨position.symbol, side, qstr, true⟩
      if api_ok = false then (none, t, [order])
      else
        let pnl :=
          if position.side = Side.long then
            (exit_price - position.entry_price) * position.quantity
          else (position.entry_price - exit_price) * position.quantity
        let commission_cost := exit_price * position.quantity * t.commission * 2
        let net_pnl := pnl - commission_cost
        let entry_value := position.entry_price * position.quantity
        let pnl_percent :=
          if entry_value ≠ 0 then net_pnl / entry_value * 100 * t.leverage else 0
        let record : TradeRecord :=
          ⟨order_id, position.symbol, position.side, position.entry_price,
            exit_price, net_pnl, reason⟩
        (some ⟨pnl_percent, net_pnl, now⟩,
          { t with
            positions := t.positions.map (fun p =>
              if p.order_id == order_id then { p with active := false } else p),
            trade_history := t.trade_history ++ [record] },
          [order])

/-- Embedding of `RealTrader.get_stats` (real_trading.py:465-471),
returning the win-rate value of the stats dict. -/
def get_stats (t : RealTrader) : ℚ :=
  if t.trade_history = [] then 0
  else
    let total := t.trade_history.length
    let winning := (t.trade_history.filter (fun tr => 0 < tr.pnl)).length
    if 0 < total then (winning : ℚ) / (total : ℚ) * 100 else 0

/-! ### The exit evaluator (`TPSLManager.check_tp_sl`) -/

/-- Configuration constant `ATR_SL_MULTIPLIER` (tp_sl_manager.py:23). -/
def ATR_SL_MULTIPLIER : ℚ := 3 / 2

/-- Configuration constant `ATR_TP_MULTIPLIER` (tp_sl_manager.py:24). -/
def ATR_TP_MULTIPLIER : ℚ := 5 / 2

/-- Configuration constant `ADX_SIDEWAY_THRESHOLD` (tp_sl_manager.py:22). -/
def ADX_SIDEWAY_THRESHOLD : ℚ := 20

/-- One indicator row of the candle dataframe: the fields of `df.iloc[-1]`
and `df.iloc[-2]` read by `check_tp_sl` (close price, MACD, MACD signal,
ADX, PSAR reversal value). -/
structure Candle where
  close : ℚ
  macd : ℚ
  macd_signal : ℚ
  adx : ℚ
  psar : ℚ
deriving DecidableEq, Repr

/-- Embedding of the exit-rule chain of `TPSLManager.check_tp_sl`
(tp_sl_manager.py:121-154): Hard Stop-Loss, then Take-Profit, then PSAR
trailing stop, then MACD crossover, then ADX sideways filter; the first
rule whose condition holds supplies the close reason, and `none` means
the position stays open. -/
def check_exit_reason (side : Side) (entry_price atr_at_entry : ℚ)
    (current prev : Candle) : Option ExitReason :=
  let sl_price_hard :=
    if side = Side.long then entry_price - atr_at_entry * ATR_SL_MULTIPLIER
    else entry_price + atr_at_entry * ATR_SL_MULTIPLIER
  let tp_price_hard :=
    if side = Side.long then entry_price + atr_at_entry * ATR_TP_MULTIPLIER
    else entry_price - atr_at_entry * ATR_TP_MULTIPLIER
  let is_long := side = Side.long
  let current_price := current.close
  if (is_long ∧ current_price ≤ sl_price_hard) ∨
      (¬is_long ∧ current_price ≥ sl_price_hard) then
    some ExitReason.hardStopLoss
  else if (is_long ∧ current_price ≥ tp_price_hard) ∨
      (¬is_long ∧ current_price ≤ tp_price_hard) then
    some ExitReason.takeProfit
  else if (is_long ∧ current_price < current.psar) ∨
      (¬is_long ∧ current_price > current.psar) then
    some ExitReason.psarTrailing
  else if (is_long ∧ current.macd < current.macd_signal ∧
        prev.macd ≥ prev.macd_signal) ∨
      (¬is_long ∧ current.macd > current.macd_signal ∧
        prev.macd ≤ prev.macd_signal) then
    some ExitReason.macdCross
  else if current.adx < ADX_SIDEWAY_THRESHOLD then
    some ExitReason.adxSideways
  else none

/-- Result of the indicator computation of `check_tp_sl`
(tp_sl_manager.py:91-105): the all-NaN flags checked at line 100, and
the last two dataframe rows. -/
structure IndicatorData where
  macdAllNan : Bool
  macdSignalAllNan : Bool
  adxAllNan : Bool
  psarAllNan : Bool
  current : Candle
  prev : Candle
deriving DecidableEq, Repr

/-- The position dict handed to `check_tp_sl` by the orchestrator:
ledger position fields plus the injected `strategy_name`; the
`atr_at_entry` lookup uses `.get` and may be absent. -/
structure MonitoredPosition where
  symbol : String
  order_id : String
  strategy_name : String
  entry_price : ℚ
  side : Side
  atr_at_entry : Option ℚ
deriving DecidableEq, Repr

/-- Embedding of the CLOSE record written to the trade journal
(tp_sl_manager.py:166-179). -/
structure JournalClose where
  order_id : String
  symbol : String
  strategy : String
  side : Side
  close_price : ℚ
  close_time : String
  pnl_percent : ℚ
  pnl_amount : ℚ
  reason_to_close : ExitReason
deriving DecidableEq, Repr

/-- Observable result of one `check_tp_sl` invocation: the trader state
afterwards, the orders submitted to the exchange, and the journal
records appended to `trades.log`. -/
structure CheckResult where
  trader : RealTrader
  orders : List OrderParams
  journal : List JournalClose
deriving DecidableEq, Repr

/-- Embedding of `TPSLManager.check_tp_sl` (tp_sl_manager.py:69-183).
Environment arguments: `klines` is the number of candles fetched
(`none` when `fetch_klines` failed), `indicators` is the indicator
computation result (`none` when it raised), `symbolInfo` and
`close_api_ok` feed the `close_position` call, `now` stands for the
current wall-clock time.  Missing `atr_at_entry`, a failed fetch, fewer
than 50 candles, an indicator failure or an all-NaN indicator column
each short-circuit to a no-op for this cycle. -/
def check_tp_sl (t : RealTrader) (pos : MonitoredPosition)
    (klines : Option Nat) (indicators : Option IndicatorData)
    (symbolInfo : Option Nat) (close_api_ok : Bool) (now : String) : CheckResult :=
  match pos.atr_at_entry with
  | none => ⟨t, [], []⟩
  | some atr_at_entry =>
    match klines with
    | none => ⟨t, [], []⟩
    | some n =>
      if n < 50 then ⟨t, [], []⟩
      else
        match indicators with
        | none => ⟨t, [], []⟩
        | some ind =>
          if ind.macdAllNan ∨ ind.macdSignalAllNan ∨ ind.adxAllNan ∨ ind.psarAllNan then
            ⟨t, [], []⟩
          else
            let current_price := ind.current.close
            match check_exit_reason pos.side pos.entry_price atr_at_entry
                ind.current ind.prev with
            | none => ⟨t, [], []⟩
            | some reason =>
              let closeRes := close_position t pos.order_id current_price reason
                symbolInfo close_api_ok now
              let pnl_percent := match closeRes.1 with
                | some cd => cd.pnl_percent
                | none => 0
              let pnl_amount := match closeRes.1 with
                | some cd => cd.pnl_amount
                | none => 0
              let close_time := match closeRes.1 with
                | some cd => cd.close_time
                | none => now
              ⟨closeRes.2.1, closeRes.2.2,
                [⟨pos.order_id, pos.symbol, pos.strategy_name, pos.side,
                  current_price, close_time, pnl_percent, pnl_amount, reason⟩]⟩

/-! ### The orchestrator step (`strategy_manager.manage_strategy`) -/

/-- Embedding of the signal dict returned by a signal analyzer, as read
by `manage_strategy` (strategy_manager.py:44-47): the `'signal'` value,
the price, and the `atr_at_entry` obtained with `.get(..., 0.0)`. -/
structure SignalData where
  signal : String
  price : ℚ
  atr_at_entry : ℚ
deriving DecidableEq, Repr

/-- Embedding of `manage_strategy` (strategy_manager.py:26-83) for one
(symbol, strategy) step.  Each strategy owns its own `RealTrader`
instance, so the trader's open positions for `symbol` are exactly the
active positions of this (symbol, strategy) pair.  `sig` is the
analyzer's result (`none` when no signal dict with a `'signal'` key was
produced); the remaining arguments feed `open_position`.  Returns the
trader state afterwards and the orders submitted. -/
def manage_strategy (symbol : String) (t : RealTrader) (sig : Option SignalData)
    (balance : ℚ) (symbolInfo : Option Nat) (api : Option String) (now : String) :
    RealTrader × List OrderParams :=
  let open_positions := get_open_positions t
  let symbol_positions := open_positions.filter (fun p => p.symbol == symbol)
  if 0 < symbol_positions.length then (t, [])
  else
    match sig with
    | none => (t, [])
    | some s =>
      if s.atr_at_entry ≤ 0 then (t, [])
      else
        let side := if s.signal == "buy" then Side.long else Side.short
        let res := open_position t symbol side s.price s.atr_at_entry
          balance symbolInfo api now
        (res.2.1, res.2.2)

/-! ## Helper lemmas -/

theorem signed_request_loop_exn_resp (pre : List HttpOutcome) :
    ∀ (a : Nat), (∀ o ∈ pre, o = HttpOutcome.exn) →
    ∀ (s b : Nat) (post : List HttpOutcome) (delay : Nat),
    signed_request_loop (pre ++ HttpOutcome.resp s b :: post) (a + 1) delay
      = (handle_response s b,
          (List.range pre.length).map fun i => delay * 2 ^ (a + i)) := by
  induction pre with
  | nil => intro a _ s b post delay; rfl
  | cons o pre ih =>
    intro a hpre s b post delay
    have ho : o = HttpOutcome.exn := hpre o (by simp)
    subst ho
    have hpre' : ∀ o ∈ pre, o = HttpOutcome.exn := fun o h => hpre o (by simp [h])
    cases hL : pre ++ HttpOutcome.resp s b :: post with
    | nil => simp at hL
    | cons r rs =>
      have hstep : signed_request_loop
          (HttpOutcome.exn :: pre ++ HttpOutcome.resp s b :: post) (a + 1) delay
          = ((signed_request_loop (r :: rs) (a + 2) delay).1,
              delay * 2 ^ a ::
                (signed_request_loop (r :: rs) (a + 2) delay).2) := by
        simp only [List.cons_append, hL, signed_request_loop, Nat.add_sub_cancel]
      rw [hstep, ← hL, ih (a + 1) hpre' s b post delay]
      have hfun : (((fun i => delay * 2 ^ (a + i)) ∘ Nat.succ) : Nat → Nat)
          = fun i => delay * 2 ^ (a + 1 + i) := by
        funext i
        simp only [Function.comp_apply]
        have hx : a + Nat.succ i = a + 1 + i := by omega
        rw [hx]
      rw [List.length_cons, List.range_succ_eq_map, List.map_cons, List.map_map, hfun]
      simp only [Nat.add_zero]

theorem signed_request_loop_all_exn (pre : List HttpOutcome) :
    ∀ (a delay : Nat), (∀ o ∈ pre, o = HttpOutcome.exn) →
    signed_request_loop pre (a + 1) delay
      = (none, (List.range (pre.length - 1)).map fun i => delay * 2 ^ (a + i)) := by
  induction pre with
  | nil => intro a delay _; rfl
  | cons o pre ih =>
    intro a delay hpre
    have ho : o = HttpOutcome.exn := hpre o (by simp)
    subst ho
    have hpre' : ∀ o ∈ pre, o = HttpOutcome.exn := fun o h => hpre o (by simp [h])
    cases hL : pre with
    | nil => rfl
    | cons r rs =>
      subst hL
      have hstep : signed_request_loop (HttpOutcome.exn :: r :: rs) (a + 1) delay
          = ((signed_request_loop (r :: rs) (a + 2) delay).1,
              delay * 2 ^ a ::
                (signed_request_loop (r :: rs) (a + 2) delay).2) := by
        simp only [signed_request_loop, Nat.add_sub_cancel]
      rw [hstep, ih (a + 1) delay hpre']
      have hfun : (((fun i => delay * 2 ^ (a + i)) ∘ Nat.succ) : Nat → Nat)
          = fun i => delay * 2 ^ (a + 1 + i) := by
        funext i
        simp only [Function.comp_apply]
        have hx : a + Nat.succ i = a + 1 + i := by omega
        rw [hx]
      have hlen : (HttpOutcome.exn :: r :: rs).length - 1 = (r :: rs).length - 1 + 1 := by
        simp
      rw [hlen, List.range_succ_eq_map, List.map_cons, List.map_map, hfun]
      simp only [Nat.add_zero]

theorem head?_dropWhile_ne {α : Type} (p : α → Bool) (l : List α) (a : α) (t : List α)
    (h : l.dropWhile p = a :: t) : p a = false := by
  induction l with
  | nil => simp [List.dropWhile] at h
  | cons x xs ih =>
    by_cases hx : p x
    · rw [List.dropWhile_cons_of_pos hx] at h; exact ih h
    · rw [List.dropWhile_cons_of_neg hx] at h
      cases h
      simpa using hx

theorem natCharsAux_digits : ∀ (fuel n : Nat), ∀ c ∈ natCharsAux fuel n,
    ∃ d, d < 10 ∧ c = Nat.digitChar d := by
  intro fuel
  induction fuel with
  | zero => intro n c hc; simp [natCharsAux] at hc
  | succ fuel ih =>
    intro n c hc
    by_cases h : n < 10
    · simp only [natCharsAux, if_pos h, List.mem_singleton] at hc
      exact ⟨n, h, hc⟩
    · simp only [natCharsAux, if_neg h, List.mem_append, List.mem_singleton] at hc
      rcases hc with hc | hc
      · exact ih (n / 10) c hc
      · exact ⟨n % 10, Nat.mod_lt n (by norm_num), hc⟩

theorem natChars_digits (n : Nat) : ∀ c ∈ natChars n, ∃ d, d < 10 ∧ c = Nat.digitChar d :=
  natCharsAux_digits (n + 1) n

theorem natCharsAux_ne_nil (fuel n : Nat) : natCharsAux (fuel + 1) n ≠ [] := by
  by_cases h : n < 10
  · simp [natCharsAux, if_pos h]
  · simp only [natCharsAux, if_neg h]
    exact List.append_ne_nil_of_right_ne_nil _ (List.cons_ne_nil _ _)

theorem natChars_ne_nil (n : Nat) : natChars n ≠ [] := natCharsAux_ne_nil n n

theorem digitChar_ne_dot : ∀ d < 10, Nat.digitChar d ≠ '.' := by decide

theorem dot_not_digit {l : List Char}
    (hd : ∀ c ∈ l, ∃ d, d < 10 ∧ c = Nat.digitChar d) : '.' ∉ l := by
  intro hmem
  obtain ⟨d, hd10, hcd⟩ := hd '.' hmem
  exact digitChar_ne_dot d hd10 hcd.symm

theorem digits_getLast_ne {l : List Char} (h : l ≠ [])
    (hd : ∀ c ∈ l, ∃ d, d < 10 ∧ c = Nat.digitChar d) : l.getLast? ≠ some '.' := by
  rw [List.getLast?_eq_getLast_of_ne_nil h]
  intro he
  have hmem := List.getLast_mem h
  have := dot_not_digit hd
  simp only [Option.some.injEq] at he
  exact this (he ▸ hmem)

theorem fmt_strip_clean (ip fr : List Char) (hip : ip ≠ [])
    (hipd : ∀ c ∈ ip, ∃ d, d < 10 ∧ c = Nat.digitChar d)
    (hfrd : ∀ c ∈ fr, ∃ d, d < 10 ∧ c = Nat.digitChar d) :
    (rstrip (rstrip (ip ++ '.' :: fr) '0') '.').getLast? ≠ some '.'
    ∧ ('.' ∈ rstrip (rstrip (ip ++ '.' :: fr) '0') '.' →
        (rstrip (rstrip (ip ++ '.' :: fr) '0') '.').getLast? ≠ some '0') := by
  have hrev : (ip ++ '.' :: fr).reverse = fr.reverse ++ '.' :: ip.reverse := by
    simp [List.reverse_append]
  have hdotzero : (('.' : Char) == '0') = false := by decide
  cases hdw : fr.reverse.dropWhile (fun x => x == '0') with
  | nil =>
    have h1 : rstrip (ip ++ '.' :: fr) '0' = ip ++ ['.'] := by
      unfold rstrip
      rw [hrev, List.dropWhile_append, hdw]
      simp [List.dropWhile_cons_of_neg, hdotzero]
    have hipLast : ∃ c t, ip.reverse = c :: t ∧ (c == '.') = false := by
      cases hrv : ip.reverse with
      | nil => exact absurd (by simpa using hrv) hip
      | cons c t =>
        refine ⟨c, t, rfl, ?_⟩
        have hcmem : c ∈ ip := by
          have : c ∈ ip.reverse := by rw [hrv]; simp
          simpa using this
        obtain ⟨d, hd10, hcd⟩ := hipd c hcmem
        have : c ≠ '.' := hcd ▸ digitChar_ne_dot d hd10
        simpa using this
    obtain ⟨c, t, hrv, hcne⟩ := hipLast
    have h2 : rstrip (ip ++ ['.']) '.' = ip := by
      unfold rstrip
      rw [List.reverse_append]
      simp only [List.reverse_cons, List.reverse_nil, List.nil_append,
        List.singleton_append]
      rw [List.dropWhile_cons_of_pos (by decide), hrv,
        List.dropWhile_cons_of_neg (by simp [hcne]), ← hrv]
      simp
    rw [h1, h2]
    constructor
    · exact digits_getLast_ne hip hipd
    · intro hmem
      exact absurd hmem (dot_not_digit hipd)
  | cons a t =>
    have hpa : ((a : Char) == '0') = false := head?_dropWhile_ne _ _ a t hdw
    have hamem : a ∈ fr := by
      have h0 : a ∈ fr.reverse.dropWhile (fun x => x == '0') := by rw [hdw]; simp
      have h1 : a ∈ fr.reverse := (List.dropWhile_sublist (l := fr.reverse) _).subset h0
      simpa using h1
    obtain ⟨d, hd10, had⟩ := hfrd a hamem
    have hadot : (a == '.') = false := by
      have : a ≠ '.' := had ▸ digitChar_ne_dot d hd10
      simpa using this
    have h1 : rstrip (ip ++ '.' :: fr) '0'
        = ((ip ++ ['.']) ++ t.reverse) ++ [a] := by
      unfold rstrip
      rw [hrev, List.dropWhile_append, hdw]
      simp [List.reverse_append]
    have h2 : rstrip (((ip ++ ['.']) ++ t.reverse) ++ [a]) '.'
        = ((ip ++ ['.']) ++ t.reverse) ++ [a] := by
      unfold rstrip
      rw [List.reverse_append]
      simp only [List.reverse_cons, List.reverse_nil, List.nil_append,
        List.singleton_append]
      rw [List.dropWhile_cons_of_neg (by simp [hadot])]
      simp
    rw [h1, h2]
    have hlast : (((ip ++ ['.']) ++ t.reverse) ++ [a]).getLast? = some a :=
      List.getLast?_concat _
    constructor
    · rw [hlast]
      intro he
      simp only [Option.some.injEq] at he
      rw [he] at hadot
      simp at hadot
    · intro _
      rw [hlast]
      intro he
      simp only [Option.some.injEq] at he
      rw [he] at hpa
      simp at hpa

theorem quantity_chars_clean (q : ℚ) (prec : Nat) :
    (quantity_chars q prec).getLast? ≠ some '.'
    ∧ ('.' ∈ quantity_chars q prec → (quantity_chars q prec).getLast? ≠ some '0') := by
  unfold quantity_chars
  cases prec with
  | zero =>
    simp only [pow_zero]
    have hnd : '.' ∉ fmtFixed (rndHalfEven (q * 1)).toNat 0 := by
      unfold fmtFixed
      simp only [if_pos rfl]
      exact dot_not_digit (natChars_digits _)
    rw [if_neg hnd]
    refine ⟨?_, fun hmem => absurd hmem hnd⟩
    unfold fmtFixed
    simp only [if_pos rfl]
    exact digits_getLast_ne (natChars_ne_nil _) (natChars_digits _)
  | succ k =>
    set m := (rndHalfEven (q * 10 ^ (k + 1))).toNat with hm
    have hfmt : fmtFixed m (k + 1)
        = natChars (m / 10 ^ (k + 1)) ++ '.' ::
            (List.replicate ((k + 1) - (natChars (m % 10 ^ (k + 1))).length) '0'
              ++ natChars (m % 10 ^ (k + 1))) := by
      unfold fmtFixed
      simp
    have hdigfr : ∀ c ∈ List.replicate ((k + 1) - (natChars (m % 10 ^ (k + 1))).length) '0'
        ++ natChars (m % 10 ^ (k + 1)), ∃ d, d < 10 ∧ c = Nat.digitChar d := by
      intro c hc
      rcases List.mem_append.1 hc with hc | hc
      · have : c = '0' := List.eq_of_mem_replicate hc
        exact ⟨0, by norm_num, by rw [this]; rfl⟩
      · exact natChars_digits _ c hc
    have hdot : '.' ∈ fmtFixed m (k + 1) := by
      rw [hfmt]
      simp
    rw [if_pos hdot, hfmt]
    exact fmt_strip_clean _ _ (natChars_ne_nil _) (natChars_digits _) hdigfr

theorem rndHalfEven_nonneg (x : ℚ) (hx : 0 ≤ x) : 0 ≤ rndHalfEven x := by
  have hf : (0 : ℤ) ≤ ⌊x⌋ := Int.floor_nonneg.2 hx
  unfold rndHalfEven
  split_ifs <;> omega

theorem roundTo_nonneg (x : ℚ) (prec : Nat) (hx : 0 ≤ x) : 0 ≤ roundTo x prec := by
  unfold roundTo
  apply div_nonneg
  · exact_mod_cast rndHalfEven_nonneg _ (mul_nonneg hx (by positivity))
  · positivity

/-! ## Claim theorems -/

/-- Claim C1, counterexample: with the first attempt answered by an HTTP
500 response and a second attempt available that would return 200, the
source's `_signed_request` returns the failure sentinel immediately
without retrying or sleeping, while the retry policy as the claim
states it (modelled by `spec_signed_request`) would retry, sleep 15s,
and return the second attempt's body.  This refutes "any failed attempt
— whether a non-200 HTTP status, a timeout, or a connection error — is
retried" and "only after exhausting all attempts does `_signed_request`
return the failure sentinel". -/
theorem c1_counterexample_non200_not_retried :
    signed_request [HttpOutcome.resp 500 0, HttpOutcome.resp 200 7] 15 = (none, [])
    ∧ spec_signed_request [HttpOutcome.resp 500 0, HttpOutcome.resp 200 7] 15
        = (some 7, [15]) :=
  ⟨rfl, rfl⟩

/-- Claim C1, amended: in `_signed_request` only attempts that raise
(timeouts, connection errors) are retried, with a wait of
`delay * 2 ^ (attempt - 1)` before each subsequent attempt; the first
attempt that receives any HTTP response ends the loop at once, its
`_handle_response` value being returned (the failure sentinel for a
non-200 status, without further retries); when every available attempt
raises, the loop exhausts its `retries` attempts (sleeping only between
attempts) and returns the failure sentinel.  The model is total, so no
exception escapes to the caller. -/
theorem c1_signed_request_retries_only_exceptions
    (pre post : List HttpOutcome) (s b delay : Nat)
    (hpre : ∀ o ∈ pre, o = HttpOutcome.exn) :
    signed_request (pre ++ HttpOutcome.resp s b :: post) delay
      = (handle_response s b, (List.range pre.length).map fun i => delay * 2 ^ i)
    ∧ signed_request pre delay
      = (none, (List.range (pre.length - 1)).map fun i => delay * 2 ^ i) := by
  constructor
  · have h := signed_request_loop_exn_resp pre 0 hpre s b post delay
    simpa [signed_request] using h
  · have h := signed_request_loop_all_exn pre 0 delay hpre
    simpa [signed_request] using h

/-- Witness for C1: two raising attempts then a 200 response give the
body after sleeps 15 and 30; two raising attempts with nothing after
them give the sentinel after a single sleep of 15. -/
theorem c1_signed_request_retries_only_exceptions_witness :
    signed_request [HttpOutcome.exn, HttpOutcome.exn, HttpOutcome.resp 200 7] 15
      = (some 7, [15, 30])
    ∧ signed_request [HttpOutcome.exn, HttpOutcome.exn] 15 = (none, [15]) := by
  have h := c1_signed_request_retries_only_exceptions
    [HttpOutcome.exn, HttpOutcome.exn] [] 200 7 15 (by decide)
  exact ⟨h.1.trans (by decide), h.2.trans (by decide)⟩

/-- Claim C2, counterexample: for a long position entered at 100 with
quantity 1 under commission rate 0.0004, closing at 110 yields net P&L
9.912 in the source (commission `exit_price * quantity * rate * 2`),
whereas the claimed formula — gross P&L minus
`entry_value_equivalent * commission_rate * 2` — yields 9.92. -/
theorem c2_counterexample_commission_uses_exit_value :
    (close_position
        ⟨10, 1 / 2500, [⟨"1", "BTCUSDT", Side.long, "t0", 100, 1, true, 1⟩], []⟩
        "1" 110 ExitReason.takeProfit (some 3) true "t1").1.map
        (fun r => r.pnl_amount)
      = some (1239 / 125)
    ∧ ((110 - 100) * 1 - 100 * 1 * (1 / 2500 : ℚ) * 2 ≠ 1239 / 125) := by
  constructor
  · have hfind : ([⟨"1", "BTCUSDT", Side.long, "t0", 100, 1, true, 1⟩] :
        List Position).find? (fun q => q.order_id == "1")
        = some ⟨"1", "BTCUSDT", Side.long, "t0", 100, 1, true, 1⟩ := rfl
    norm_num [close_position, hfind]
  · norm_num

/-- Claim C2, amended: on a successful close of an active position the
realized net P&L equals the gross P&L (`(exit - entry) * qty` for long,
inverted for short) minus a round-trip commission computed from the
EXIT value — `exit_price * quantity * commission_rate * 2` — not the
entry value; the percentage P&L is net P&L over entry notional, times
100, scaled by leverage; the appended trade record carries the net
P&L as its `pnl`. -/
theorem c2_close_pnl_formula (t : RealTrader) (oid : String) (ep : ℚ)
    (r : ExitReason) (si : Option Nat) (now : String) (p : Position)
    (hf : t.positions.find? (fun q => q.order_id == oid) = some p)
    (hact : p.active = true) :
    ∃ res : CloseResult,
      (close_position t oid ep r si true now).1 = some res
      ∧ res.pnl_amount
          = (if p.side = Side.long then (ep - p.entry_price) * p.quantity
              else (p.entry_price - ep) * p.quantity)
            - ep * p.quantity * t.commission * 2
      ∧ (p.entry_price * p.quantity ≠ 0 →
          res.pnl_percent
            = res.pnl_amount / (p.entry_price * p.quantity) * 100 * t.leverage)
      ∧ (close_position t oid ep r si true now).2.1.trade_history
          = t.trade_history
            ++ [⟨oid, p.symbol, p.side, p.entry_price, ep, res.pnl_amount, r⟩] := by
  unfold close_position
  rw [hf]
  simp only [hact, if_neg (by simp : ¬ (true = false))]
  refine ⟨_, rfl, rfl, ?_, rfl⟩
  intro h
  rw [if_pos h]

/-- Witness for C2: the concrete close of the counterexample's position
instantiates the amended formulas. -/
theorem c2_close_pnl_formula_witness :
    ∃ res : CloseResult,
      (close_position
          ⟨10, 1 / 2500, [⟨"1", "BTCUSDT", Side.long, "t0", 100, 1, true, 1⟩], []⟩
          "1" 110 ExitReason.takeProfit (some 3) true "t1").1 = some res
      ∧ res.pnl_amount
          = (if Side.long = Side.long then ((110 : ℚ) - 100) * 1 else (100 - 110) * 1)
            - 110 * 1 * (1 / 2500) * 2
      ∧ ((100 : ℚ) * 1 ≠ 0 →
          res.pnl_percent = res.pnl_amount / (100 * 1) * 100 * 10)
      ∧ (close_position
          ⟨10, 1 / 2500, [⟨"1", "BTCUSDT", Side.long, "t0", 100, 1, true, 1⟩], []⟩
          "1" 110 ExitReason.takeProfit (some 3) true "t1").2.1.trade_history
          = [] ++ [⟨"1", "BTCUSDT", Side.long, 100, 110, res.pnl_amount,
              ExitReason.takeProfit⟩] :=
  c2_close_pnl_formula
    ⟨10, 1 / 2500, [⟨"1", "BTCUSDT", Side.long, "t0", 100, 1, true, 1⟩], []⟩
    "1" 110 ExitReason.takeProfit (some 3) "t1"
    ⟨"1", "BTCUSDT", Side.long, "t0", 100, 1, true, 1⟩ (by decide) rfl

/-- Claim C3 (code bug): `open_position` never re-checks `quantity > 0`
after rounding.  With balance 1000, symbol precision 3 and the valid
but large ATR 100000, the quantity `100 / (100000 * 2.5) = 0.0004`
rounds to 0, and a MARKET BUY order whose quantity string is `"0"` is
still submitted to the exchange (modelled by the returned order list;
`api = none` is the exchange rejecting it), instead of the attempt
being treated as ineligible with no order submitted. -/
theorem c3_zero_quantity_order_submitted :
    roundTo (FIXED_RISK_AMOUNT / (100000 * DEFAULT_STOP_MULTIPLIER)) 3 = 0
    ∧ (open_position ⟨10, 1 / 2500, [], []⟩ "BTCUSDT" Side.long 50 100000 1000
        (some 3) none "t0").2.2
      = [⟨"BTCUSDT", "BUY", ['0'], false⟩] := by
  have hq : FIXED_RISK_AMOUNT / (100000 * DEFAULT_STOP_MULTIPLIER) * 10 ^ 3
      = 2 / 5 := by
    norm_num [FIXED_RISK_AMOUNT, DEFAULT_STOP_MULTIPLIER]
  have hrnd : rndHalfEven (FIXED_RISK_AMOUNT / (100000 * DEFAULT_STOP_MULTIPLIER)
      * 10 ^ 3) = 0 := by
    rw [hq]
    unfold rndHalfEven
    norm_num
  have hround : roundTo (FIXED_RISK_AMOUNT / (100000 * DEFAULT_STOP_MULTIPLIER)) 3
      = 0 := by
    unfold roundTo
    rw [hrnd]
    norm_num
  refine ⟨hround, ?_⟩
  have hrnd0 : rndHalfEven ((0 : ℚ) * 10 ^ 3) = 0 := by
    unfold rndHalfEven
    norm_num
  have hqc : quantity_chars 0 3 = ['0'] := by
    simp only [quantity_chars, hrnd0]
    decide
  unfold open_position
  rw [if_neg (by norm_num : ¬ (1000 : ℚ) ≤ 0),
    if_neg (by norm_num [DEFAULT_STOP_MULTIPLIER] :
      ¬ (100000 : ℚ) * DEFAULT_STOP_MULTIPLIER ≤ 0)]
  simp only [get_symbol_precision, hround, hqc]
  rfl

/-- Claim C7: for positive risk amount, ATR and stop multiplier, the
quantity `risk / (atr * mult)` rounded at the symbol precision `prec`
(default 3 when the exchange lookup is unavailable) is nonnegative and
an integer multiple of `10 ^ (-prec)` (at most `prec` fractional
digits); the transmitted quantity string never ends in a decimal point
and, whenever it still contains a decimal point, never ends in a zero;
`open_position` transmits exactly this string; and a non-positive stop
distance `atr * DEFAULT_STOP_MULTIPLIER` makes the entry ineligible:
no order is submitted and nothing changes. -/
theorem c7_risk_sizing (risk atr mult : ℚ) (prec : Nat)
    (t : RealTrader) (symbol : String) (side : Side) (ep atr0 balance : ℚ)
    (si : Option Nat) (api : Option String) (now : String)
    (hr : 0 < risk) (ha : 0 < atr) (hm : 0 < mult) :
    0 ≤ roundTo (risk / (atr * mult)) prec
    ∧ (∃ q : ℤ, 0 ≤ q ∧ roundTo (risk / (atr * mult)) prec = (q : ℚ) / 10 ^ prec)
    ∧ (quantity_chars (roundTo (risk / (atr * mult)) prec) prec).getLast? ≠ some '.'
    ∧ ('.' ∈ quantity_chars (roundTo (risk / (atr * mult)) prec) prec →
        (quantity_chars (roundTo (risk / (atr * mult)) prec) prec).getLast? ≠ some '0')
    ∧ get_symbol_precision none = 3
    ∧ (0 < balance → 0 < atr0 →
        (open_position t symbol side ep atr0 balance si api now).2.2.map
            (fun o => o.quantity)
          = [quantity_chars
              (roundTo (FIXED_RISK_AMOUNT / (atr0 * DEFAULT_STOP_MULTIPLIER))
                (get_symbol_precision si))
              (get_symbol_precision si)])
    ∧ (atr0 * DEFAULT_STOP_MULTIPLIER ≤ 0 →
        open_position t symbol side ep atr0 balance si api now = (none, t, [])) := by
  have hq : (0 : ℚ) ≤ risk / (atr * mult) :=
    le_of_lt (div_pos hr (mul_pos ha hm))
  refine ⟨roundTo_nonneg _ _ hq, ?_, (quantity_chars_clean _ _).1,
    (quantity_chars_clean _ _).2, rfl, ?_, ?_⟩
  · exact ⟨rndHalfEven (risk / (atr * mult) * 10 ^ prec),
      rndHalfEven_nonneg _ (mul_nonneg hq (by positivity)), rfl⟩
  · intro hb ha0
    have hbne : ¬ balance ≤ 0 := not_le.2 hb
    have hpd : ¬ atr0 * DEFAULT_STOP_MULTIPLIER ≤ 0 := by
      refine not_le.2 (mul_pos ha0 ?_)
      norm_num [DEFAULT_STOP_MULTIPLIER]
    unfold open_position
    rw [if_neg hbne, if_neg hpd]
    cases api <;> simp
  · intro hpd
    by_cases hb : balance ≤ 0
    · unfold open_position
      rw [if_pos hb]
    · unfold open_position
      rw [if_neg hb, if_pos hpd]

/-- Witness for C7: the sizing of a 100-dollar risk at ATR 2 and
multiplier 2.5, and the ineligible branch at ATR -1. -/
theorem c7_risk_sizing_witness :
    0 ≤ roundTo ((100 : ℚ) / (2 * (5 / 2))) 3
    ∧ (open_position ⟨10, 1 / 2500, [], []⟩ "BTCUSDT" Side.long 50 2 1000 none
        (some "42") "t0").2.2.map (fun o => o.quantity)
      = [quantity_chars
          (roundTo (FIXED_RISK_AMOUNT / (2 * DEFAULT_STOP_MULTIPLIER))
            (get_symbol_precision none))
          (get_symbol_precision none)]
    ∧ open_position ⟨10, 1 / 2500, [], []⟩ "BTCUSDT" Side.long 50 (-1) 1000 none
        (some "42") "t0" = (none, ⟨10, 1 / 2500, [], []⟩, []) := by
  have h1 := c7_risk_sizing 100 2 (5 / 2) 3 ⟨10, 1 / 2500, [], []⟩ "BTCUSDT"
    Side.long 50 2 1000 none (some "42") "t0" (by norm_num) (by norm_num) (by norm_num)
  have h2 := c7_risk_sizing 100 2 (5 / 2) 3 ⟨10, 1 / 2500, [], []⟩ "BTCUSDT"
    Side.long 50 (-1) 1000 none (some "42") "t0" (by norm_num) (by norm_num) (by norm_num)
  exact ⟨h1.1, h1.2.2.2.2.2.1 (by norm_num) (by norm_num),
    h2.2.2.2.2.2.2 (by norm_num [DEFAULT_STOP_MULTIPLIER])⟩

/-- Claim C4: the exit decision is the fixed-priority first-match chain
of `check_tp_sl`.  Whenever the hard stop-loss condition holds (price
moved against entry by at least `atr_at_entry * 1.5`:
`current <= entry - distance` for long, mirrored for short) the
hard-stop reason is returned, regardless of every other indicator —
in particular when the take-profit condition holds simultaneously.
In the concrete long scenario entry 100, `atr_at_entry` 2, a price of
96.5 returns the Hard Stop-Loss reason and a price of 105.5 the
Take-Profit reason, for all values of the remaining indicator fields. -/
theorem c4_exit_priority (side : Side) (entry atr : ℚ) (cur prev : Candle) :
    (((side = Side.long ∧ cur.close ≤ entry - atr * ATR_SL_MULTIPLIER) ∨
        (side = Side.short ∧ cur.close ≥ entry + atr * ATR_SL_MULTIPLIER)) →
      check_exit_reason side entry atr cur prev = some ExitReason.hardStopLoss)
    ∧ check_exit_reason Side.long 100 2
        ⟨96.5, cur.macd, cur.macd_signal, cur.adx, cur.psar⟩ prev
      = some ExitReason.hardStopLoss
    ∧ check_exit_reason Side.long 100 2
        ⟨105.5, cur.macd, cur.macd_signal, cur.adx, cur.psar⟩ prev
      = some ExitReason.takeProfit := by
  refine ⟨?_, ?_, ?_⟩
  · rintro (⟨hs, hc⟩ | ⟨hs, hc⟩) <;> subst hs <;> simp [check_exit_reason, hc]
  · norm_num [check_exit_reason, ATR_SL_MULTIPLIER]
  · norm_num [check_exit_reason, ATR_SL_MULTIPLIER, ATR_TP_MULTIPLIER]

/-- Witness for C4: a constructed edge case (negative `atr_at_entry`)
in which the hard-stop and take-profit conditions hold simultaneously
for the same tick, and the hard-stop reason is the one returned. -/
theorem c4_exit_priority_witness :
    ((99 : ℚ) ≤ 100 - (-2) * ATR_SL_MULTIPLIER)
    ∧ ((99 : ℚ) ≥ 100 + (-2) * ATR_TP_MULTIPLIER)
    ∧ check_exit_reason Side.long 100 (-2) ⟨99, 0, 0, 25, 0⟩ ⟨0, 0, 0, 0, 0⟩
      = some ExitReason.hardStopLoss :=
  ⟨by norm_num [ATR_SL_MULTIPLIER], by norm_num [ATR_TP_MULTIPLIER],
    (c4_exit_priority Side.long 100 (-2) ⟨99, 0, 0, 25, 0⟩ ⟨0, 0, 0, 0, 0⟩).1
      (Or.inl ⟨rfl, by norm_num [ATR_SL_MULTIPLIER]⟩)⟩

/-- Claim C5: when an active position already exists for the symbol on
this strategy's trader (each strategy owns its own `RealTrader`, so the
trader's positions for the symbol are exactly the (symbol, strategy)
pair's), `manage_strategy` skips the step entirely: no order is
submitted and the trader state is unchanged, whatever signal the
analyzer would produce. -/
theorem c5_duplicate_position_guard (symbol : String) (t : RealTrader)
    (sig : Option SignalData) (balance : ℚ) (si : Option Nat)
    (api : Option String) (now : String) (p : Position)
    (hp : p ∈ t.positions) (hact : p.active = true) (hsym : p.symbol = symbol) :
    manage_strategy symbol t sig balance si api now = (t, []) := by
  have hmem : p ∈ (get_open_positions t).filter (fun q => q.symbol == symbol) := by
    rw [List.mem_filter]
    refine ⟨?_, by simp [hsym]⟩
    rw [get_open_positions, List.mem_filter]
    exact ⟨hp, hact⟩
  simp only [manage_strategy]
  rw [if_pos (List.length_pos_of_mem hmem)]

/-- Witness for C5: with an active BTCUSDT position on the trader, a
fresh buy signal for BTCUSDT is ignored and nothing changes. -/
theorem c5_duplicate_position_guard_witness :
    manage_strategy "BTCUSDT"
      ⟨10, 0, [⟨"1", "BTCUSDT", Side.long, "t0", 100, 1, true, 2⟩], []⟩
      (some ⟨"buy", 100, 2⟩) 1000 none (some "2") "t1"
      = (⟨10, 0, [⟨"1", "BTCUSDT", Side.long, "t0", 100, 1, true, 2⟩], []⟩, []) :=
  c5_duplicate_position_guard "BTCUSDT"
    ⟨10, 0, [⟨"1", "BTCUSDT", Side.long, "t0", 100, 1, true, 2⟩], []⟩
    (some ⟨"buy", 100, 2⟩) 1000 none (some "2") "t1"
    ⟨"1", "BTCUSDT", Side.long, "t0", 100, 1, true, 2⟩
    (by simp) rfl rfl

/-- Claim C6: `close_position` on an order id that is absent from the
position dict, or whose position is already inactive, returns the
failure sentinel and leaves the trader (positions and trade history)
entirely unchanged, submitting no order; and after a successful close
of an order id, a second close call on that id fails the same way and
leaves the post-close state — in particular the trade history length —
unchanged. -/
theorem c6_close_unknown_or_inactive (t : RealTrader) (oid : String)
    (ep ep2 : ℚ) (r r2 : ExitReason) (si si2 : Option Nat) (ok ok2 : Bool)
    (now now2 : String) :
    ((t.positions.find? (fun p => p.order_id == oid) = none ∨
        (∃ p, t.positions.find? (fun p => p.order_id == oid) = some p
          ∧ p.active = false)) →
      close_position t oid ep r si ok now = (none, t, []))
    ∧ (∀ (res : CloseResult) (t1 : RealTrader) (orders : List OrderParams),
        close_position t oid ep r si ok now = (some res, t1, orders) →
        close_position t1 oid ep2 r2 si2 ok2 now2 = (none, t1, [])) := by
  constructor
  · rintro (hf | ⟨p, hf, hpa⟩)
    · simp only [close_position, hf]
    · simp only [close_position, hf, hpa, if_pos]
  · intro res t1 orders h
    cases hf : t.positions.find? (fun q => q.order_id == oid) with
    | none => simp [close_position, hf] at h
    | some p =>
      by_cases hpa : p.active = false
      · simp [close_position, hf, hpa] at h
      · by_cases hok : ok = false
        · simp [close_position, hf, hpa, hok] at h
        · have hoktrue : ok = true := by revert hok; cases ok <;> simp
          subst hoktrue
          simp only [close_position, hf, if_neg hpa,
            if_neg (by simp : ¬ (true = false))] at h
          rw [Prod.mk.injEq, Prod.mk.injEq] at h
          obtain ⟨-, ht1, -⟩ := h
          have hpredf : ((fun (q : Position) => q.order_id == oid) ∘
              (fun (q : Position) =>
                if q.order_id == oid then { q with active := false } else q))
              = fun (q : Position) => q.order_id == oid := by
            funext q
            by_cases hq : q.order_id = oid
            · simp [hq]
            · simp [hq]
          have hptrue : (p.order_id == oid) = true := by
            have hs := List.find?_some hf
            simpa using hs
          have hfind1 : (t.positions.map (fun q =>
              if q.order_id == oid then { q with active := false } else q)).find?
              (fun q => q.order_id == oid)
              = some { p with active := false } := by
            rw [List.find?_map, hpredf, hf, Option.map_some', if_pos hptrue]
          subst ht1
          simp only [close_position, hfind1]
          simp

/-- Witness for C6: open-then-close a concrete position (leverage 1,
commission 0), then a second close of the same order id fails and
leaves the post-close state untouched. -/
theorem c6_close_unknown_or_inactive_witness :
    close_position
      ⟨1, 0, [⟨"1", "S", Side.long, "t0", 100, 1, false, 1⟩],
        [⟨"1", "S", Side.long, 100, 110, 10, ExitReason.takeProfit⟩]⟩
      "1" 120 ExitReason.hardStopLoss none true "t2"
      = (none,
          ⟨1, 0, [⟨"1", "S", Side.long, "t0", 100, 1, false, 1⟩],
            [⟨"1", "S", Side.long, 100, 110, 10, ExitReason.takeProfit⟩]⟩,
          []) := by
  have hrnd1 : rndHalfEven ((1 : ℚ) * 10 ^ 3) = 1000 := by
    unfold rndHalfEven
    norm_num
  have hqc : quantity_chars 1 3 = ['1'] := by
    simp only [quantity_chars, hrnd1]
    decide
  have hfind : ([⟨"1", "S", Side.long, "t0", 100, 1, true, 1⟩] :
      List Position).find? (fun q => q.order_id == "1")
      = some ⟨"1", "S", Side.long, "t0", 100, 1, true, 1⟩ := rfl
  have hclose : close_position
      ⟨1, 0, [⟨"1", "S", Side.long, "t0", 100, 1, true, 1⟩], []⟩
      "1" 110 ExitReason.takeProfit (some 3) true "t1"
      = (some ⟨10, 10, "t1"⟩,
          ⟨1, 0, [⟨"1", "S", Side.long, "t0", 100, 1, false, 1⟩],
            [⟨"1", "S", Side.long, 100, 110, 10, ExitReason.takeProfit⟩]⟩,
          [⟨"S", "SELL", ['1'], true⟩]) := by
    norm_num [close_position, hfind, get_symbol_precision, hqc]
  exact (c6_close_unknown_or_inactive
    ⟨1, 0, [⟨"1", "S", Side.long, "t0", 100, 1, true, 1⟩], []⟩
    "1" 110 120 ExitReason.takeProfit ExitReason.hardStopLoss (some 3) none
    true true "t1" "t2").2 ⟨10, 10, "t1"⟩
    ⟨1, 0, [⟨"1", "S", Side.long, "t0", 100, 1, false, 1⟩],
      [⟨"1", "S", Side.long, 100, 110, 10, ExitReason.takeProfit⟩]⟩
    [⟨"S", "SELL", ['1'], true⟩] hclose

/-- Claim C8: when the candle fetch fails, fewer than 50 candles are
available, the indicator computation fails, or any required indicator
column is entirely missing, `check_tp_sl` is a no-op for the cycle:
state unchanged, no order submitted, no journal entry — and, being a
total function, no error propagates. -/
theorem c8_insufficient_data_noop (t : RealTrader) (pos : MonitoredPosition)
    (klines : Option Nat) (ind : Option IndicatorData) (si : Option Nat)
    (ok : Bool) (now : String)
    (h : klines = none ∨ (∃ n, klines = some n ∧ n < 50) ∨ ind = none
      ∨ (∃ d, ind = some d ∧ (d.macdAllNan ∨ d.macdSignalAllNan ∨ d.adxAllNan
          ∨ d.psarAllNan))) :
    check_tp_sl t pos klines ind si ok now = ⟨t, [], []⟩ := by
  cases hatr : pos.atr_at_entry with
  | none => simp [check_tp_sl, hatr]
  | some atr =>
    rcases h with h | ⟨n, hn, hlt⟩ | h | ⟨d, hd, hflag⟩
    · simp [check_tp_sl, hatr, h]
    · simp [check_tp_sl, hatr, hn, hlt]
    · cases hk : klines with
      | none => simp [check_tp_sl, hatr, hk]
      | some n =>
        by_cases hn : n < 50
        · simp [check_tp_sl, hatr, hk, hn]
        · simp [check_tp_sl, hatr, hk, hn, h]
    · cases hk : klines with
      | none => simp [check_tp_sl, hatr, hk]
      | some n =>
        by_cases hn : n < 50
        · simp [check_tp_sl, hatr, hk, hn]
        · simp [check_tp_sl, hatr, hk, hn, hd, hflag]

/-- Witness for C8: only 10 candles available (and the indicator
computation failed as well): nothing happens this cycle. -/
theorem c8_insufficient_data_noop_witness :
    check_tp_sl ⟨1, 0, [], []⟩ ⟨"S", "1", "trend", 100, Side.long, some 2⟩
      (some 10) none (some 3) true "t1"
      = ⟨⟨1, 0, [], []⟩, [], []⟩ :=
  c8_insufficient_data_noop ⟨1, 0, [], []⟩
    ⟨"S", "1", "trend", 100, Side.long, some 2⟩ (some 10) none (some 3) true "t1"
    (Or.inr (Or.inl ⟨10, rfl, by norm_num⟩))

/-- Claim C9: the win rate is the number of closed trades with positive
net P&L over the number of closed trades, times 100, and 0 for an empty
history; on the history with net P&L values [+10, -5, +3, -3] it is 50. -/
theorem c9_win_rate (t : RealTrader) :
    (t.trade_history = [] → get_stats t = 0)
    ∧ (t.trade_history ≠ [] →
        get_stats t
          = ((t.trade_history.filter fun tr => 0 < tr.pnl).length : ℚ)
            / (t.trade_history.length : ℚ) * 100)
    ∧ get_stats ⟨10, 0, [],
        [⟨"1", "S", Side.long, 0, 0, 10, ExitReason.takeProfit⟩,
         ⟨"2", "S", Side.long, 0, 0, -5, ExitReason.hardStopLoss⟩,
         ⟨"3", "S", Side.long, 0, 0, 3, ExitReason.takeProfit⟩,
         ⟨"4", "S", Side.long, 0, 0, -3, ExitReason.hardStopLoss⟩]⟩ = 50 := by
  refine ⟨?_, ?_, ?_⟩
  · intro h
    simp only [get_stats]
    rw [if_pos h]
  · intro h
    simp only [get_stats]
    rw [if_neg h, if_pos (List.length_pos.2 h)]
  · simp only [get_stats]
    rw [if_neg (by simp)]
    norm_num [List.filter_cons, decide_eq_true_eq]

/-- Witness for C9: instantiating the empty-history case and the ratio
formula on the concrete four-trade history. -/
theorem c9_win_rate_witness :
    get_stats ⟨1, 0, [], []⟩ = 0
    ∧ get_stats ⟨10, 0, [],
        [⟨"1", "S", Side.long, 0, 0, 10, ExitReason.takeProfit⟩,
         ⟨"2", "S", Side.long, 0, 0, -5, ExitReason.hardStopLoss⟩,
         ⟨"3", "S", Side.long, 0, 0, 3, ExitReason.takeProfit⟩,
         ⟨"4", "S", Side.long, 0, 0, -3, ExitReason.hardStopLoss⟩]⟩ = 50 :=
  ⟨(c9_win_rate ⟨1, 0, [], []⟩).1 rfl, (c9_win_rate ⟨1, 0, [], []⟩).2.2⟩

/-- Helper: a close whose exchange order fails (`api_ok = false`)
returns the sentinel and leaves the trader untouched, whether or not
the position exists. -/
theorem close_position_api_fail (t : RealTrader) (oid : String) (ep : ℚ)
    (r : ExitReason) (si : Option Nat) (now : String) :
    (close_position t oid ep r si false now).1 = none
    ∧ (close_position t oid ep r si false now).2.1 = t := by
  cases hf : t.positions.find? (fun q => q.order_id == oid) with
  | none => simp [close_position, hf]
  | some p =>
    by_cases hpa : p.active = false
    · simp [close_position, hf, hpa]
    · simp [close_position, hf, hpa]

/-- Claim C10 (implicit): when an exit rule fires but the exchange
close order fails (`close_position` returns the failure sentinel), the
exit evaluator still appends a CLOSE record to the trade journal — with
`pnl_amount` and `pnl_percent` defaulted to 0 and the current time as
close time — even though the trader state (hence the still-active
position and the trade history) is unchanged. -/
theorem c10_journal_despite_failed_close (t : RealTrader)
    (pos : MonitoredPosition) (atr : ℚ) (n : Nat) (d : IndicatorData)
    (si : Option Nat) (now : String) (reason : ExitReason)
    (hatr : pos.atr_at_entry = some atr) (hn : ¬ n < 50)
    (hflags : ¬ (d.macdAllNan ∨ d.macdSignalAllNan ∨ d.adxAllNan ∨ d.psarAllNan))
    (hreason : check_exit_reason pos.side pos.entry_price atr d.current d.prev
      = some reason) :
    (check_tp_sl t pos (some n) (some d) si false now).trader = t
    ∧ (check_tp_sl t pos (some n) (some d) si false now).journal
      = [⟨pos.order_id, pos.symbol, pos.strategy_name, pos.side,
          d.current.close, now, 0, 0, reason⟩]
    ∧ (check_tp_sl t pos (some n) (some d) si false now).trader.trade_history
      = t.trade_history := by
  have hc := close_position_api_fail t pos.order_id d.current.close reason si now
  have hmain : check_tp_sl t pos (some n) (some d) si false now
      = ⟨(close_position t pos.order_id d.current.close reason si false now).2.1,
          (close_position t pos.order_id d.current.close reason si false now).2.2,
          [⟨pos.order_id, pos.symbol, pos.strategy_name, pos.side,
            d.current.close, now, 0, 0, reason⟩]⟩ := by
    simp only [check_tp_sl, hatr, if_neg hn, if_neg hflags, hreason, hc.1]
  rw [hmain, hc.2]
  exact ⟨rfl, rfl, rfl⟩

/-- Witness for C10: a long position entered at 100 with ATR 2 sees a
tick at 96.5 (hard stop-loss fires); the exchange close fails, yet a
CLOSE journal record with zero P&L is written and the ledger is
untouched. -/
theorem c10_journal_despite_failed_close_witness :
    (check_tp_sl ⟨10, 0, [⟨"1", "BTC", Side.long, "t0", 100, 1, true, 2⟩], []⟩
        ⟨"BTC", "1", "trend", 100, Side.long, some 2⟩ (some 100)
        (some ⟨false, false, false, false, ⟨96.5, 0, 0, 25, 90⟩, ⟨0, 0, 0, 0, 0⟩⟩)
        (some 3) false "tN").trader
      = ⟨10, 0, [⟨"1", "BTC", Side.long, "t0", 100, 1, true, 2⟩], []⟩
    ∧ (check_tp_sl ⟨10, 0, [⟨"1", "BTC", Side.long, "t0", 100, 1, true, 2⟩], []⟩
        ⟨"BTC", "1", "trend", 100, Side.long, some 2⟩ (some 100)
        (some ⟨false, false, false, false, ⟨96.5, 0, 0, 25, 90⟩, ⟨0, 0, 0, 0, 0⟩⟩)
        (some 3) false "tN").journal
      = [⟨"1", "BTC", "trend", Side.long, 96.5, "tN", 0, 0,
          ExitReason.hardStopLoss⟩] := by
  have h := c10_journal_despite_failed_close
    ⟨10, 0, [⟨"1", "BTC", Side.long, "t0", 100, 1, true, 2⟩], []⟩
    ⟨"BTC", "1", "trend", 100, Side.long, some 2⟩ 2 100
    ⟨false, false, false, false, ⟨96.5, 0, 0, 25, 90⟩, ⟨0, 0, 0, 0, 0⟩⟩
    (some 3) "tN" ExitReason.hardStopLoss rfl (by norm_num) (by simp)
    (by norm_num [check_exit_reason, ATR_SL_MULTIPLIER])
  exact ⟨h.1, h.2.1⟩

end BinanceBot
